import Mathlib

/-!
Verification development for the `c10d::ProcessGroupNCCL` component
(`torch/lib/c10d/ProcessGroupNCCL.hpp`).

The repository ships only the declaration header; the behaviour of every
member function is therefore modelled from the design specification
(`spec.md`) and from the contracts stated in the header's own comments.
The embedding below is a shallow one: the process-group instance is a
record of its caches and counters, each operation is a pure function from
state to (result, state), the shared key-value store is an association
list, and GPU-side progress is an explicit monotone signal trace.
Referential identity of heap objects (communicators, streams, events) is
modelled by tagging each constructed object with a fresh serial number
drawn from a counter in the state.
-/

namespace c10d

/-- Opaque NCCL unique id token (`ncclUniqueId`), modelled as a natural. -/
abbrev NcclUniqueId := Nat

/-- Modelled from the spec: a per-device communication context
(`NCCLComm`, missing from `src/`), bound to a group identifier, this
process's rank, the group size and its device; `serial` models the
identity of the underlying heap object. -/
structure NCCLComm where
  serial : Nat
  ncclId : NcclUniqueId
  rank : Nat
  numRanks : Nat
  device : Nat
deriving DecidableEq, Repr

/-- Modelled from the spec: a dedicated per-device execution stream
(`CUDAStream`, missing from `src/`); `streamId` models object identity. -/
structure CUDAStream where
  streamId : Nat
  device : Nat
deriving DecidableEq, Repr

/-- Modelled from the spec: a device-scoped synchronization event
(`CUDAEvent`, missing from `src/`); `eventId` models object identity. -/
structure CUDAEvent where
  eventId : Nat
  device : Nat
deriving DecidableEq, Repr

/-- Modelled from the spec: the fields of `at::Tensor` that this core
reads for validation and dispatch (device identifier, element type,
shape); payload contents are out of scope. -/
structure Tensor where
  device : Nat
  dtype : Nat
  sizes : List Nat
deriving DecidableEq, Repr

/-- The specific validation mismatch detected by `tensorCheckHelper`. -/
inductive CheckFailure
  | emptyList
  | countMismatch
  | typeMismatch
  | sizeMismatch
  | duplicateDevice
deriving DecidableEq, Repr

/-- Error taxonomy of the spec (section 7). -/
inductive PGError
  | InvalidOperands (f : CheckFailure)
  | StoreUnavailable
  | BackendFailure
  | NotSupported
deriving DecidableEq, Repr

/-- The collective operation kinds exposed by the public interface. -/
inductive OpKind
  | allreduceOp
  | broadcastOp
deriving DecidableEq, Repr

/-- Association-list lookup, modelling `std::unordered_map::find`. -/
def alookup {α : Type} : List (String × α) → String → Option α
  | [], _ => none
  | (k, v) :: rest, key => if k = key then some v else alookup rest key

/-- Decimal digit character (`'0'` + d). -/
def digitChar : Nat → Char
  | 0 => '0'
  | 1 => '1'
  | 2 => '2'
  | 3 => '3'
  | 4 => '4'
  | 5 => '5'
  | 6 => '6'
  | 7 => '7'
  | 8 => '8'
  | _ => '9'

/-- Numeric value of a decimal digit character (decoder for proofs). -/
def charVal : Char → Nat
  | '1' => 1
  | '2' => 2
  | '3' => 3
  | '4' => 4
  | '5' => 5
  | '6' => 6
  | '7' => 7
  | '8' => 8
  | '9' => 9
  | _ => 0

/-- Fuel-based decimal rendering of a natural, most significant digit
first; `fuel ≥ n` makes the recursion structural. -/
def natCharsAux : Nat → Nat → List Char
  | 0, _ => []
  | fuel + 1, n =>
    if n = 0 then [] else natCharsAux fuel (n / 10) ++ [digitChar (n % 10)]

/-- Decimal character list of a natural number, as produced by
`std::to_string`. -/
def natChars (n : Nat) : List Char :=
  if n = 0 then ['0'] else natCharsAux n n

/-- Value of a big-endian decimal character list. -/
def charsVal (cs : List Char) : Nat :=
  cs.foldl (fun a c => 10 * a + charVal c) 0

/-- Join character lists with `','` separators, as the device-key
construction does (header comment: devices `0,4,5,6,7,1,2,3` give the
key `"0,4,5,6,7,1,2,3"`). -/
def joinComma : List (List Char) → List Char
  | [] => []
  | [x] => x
  | x :: y :: xs => x ++ ',' :: joinComma (y :: xs)

/-- Modelled from the spec: the cache key derived from an ordered device
sequence (`getKeyFromDevices`, missing from `src/`): the device
identifiers rendered in decimal and joined with commas, used verbatim. -/
def getKeyFromDevices (devices : List Nat) : String :=
  String.mk (joinComma (devices.map natChars))

/-- Modelled from the spec: the failure environment of the native
backend — whether `ncclCommInitRank` succeeds on a given device
(the initialization code is missing from `src/`). -/
structure Env where
  commInitOk : Nat → Bool

/-- Options of `ProcessGroup::broadcast` (root rank and root tensor). -/
structure BroadcastOptions where
  rootRank : Nat
  rootTensor : Nat
deriving DecidableEq, Repr

/-- Options of `ProcessGroup::allreduce` (the reduction operation). -/
structure AllreduceOptions where
  reduceOp : Nat
deriving DecidableEq, Repr

/-- State of one `ProcessGroupNCCL` instance: its rank and size, the
shared store (`store_`), the three device-key-indexed caches
(`devNCCLCommMap_`, `ncclStreams_`, `ncclEvents_`), freshness counters
modelling heap-object identity, and the log of kernels enqueued on the
devices. -/
structure PGState where
  rank_ : Nat
  size_ : Nat
  store_ : List (String × NcclUniqueId)
  devNCCLCommMap_ : List (String × List NCCLComm)
  ncclStreams_ : List (String × List CUDAStream)
  ncclEvents_ : List (String × List CUDAEvent)
  nextCommSerial : Nat
  nextStreamId : Nat
  nextEventId : Nat
  nextNcclIdSeed : Nat
  enqueued : List (OpKind × Nat)
deriving DecidableEq, Repr

/-- Constructor `ProcessGroupNCCL(store, rank, size)`: all caches start
empty. -/
def mkProcessGroupNCCL (store : List (String × NcclUniqueId)) (rank size : Nat) : PGState :=
  { rank_ := rank
    size_ := size
    store_ := store
    devNCCLCommMap_ := []
    ncclStreams_ := []
    ncclEvents_ := []
    nextCommSerial := 0
    nextStreamId := 0
    nextEventId := 0
    nextNcclIdSeed := 0
    enqueued := [] }

/-- Modelled from the spec: `broadcastUniqueNCCLId` (body missing from
`src/`). The designated originator (rank 0) generates a fresh identifier
and writes it to the shared store under the device key; every other rank
reads that entry, blocking until present (a store that never produces
the value is the `StoreUnavailable` failure). -/
def broadcastUniqueNCCLId (s : PGState) (devicesKey : String) :
    Except PGError NcclUniqueId × PGState :=
  if s.rank_ = 0 then
    let uid := s.nextNcclIdSeed
    (.ok uid,
      { s with store_ := (devicesKey, uid) :: s.store_,
               nextNcclIdSeed := s.nextNcclIdSeed + 1 })
  else
    match alookup s.store_ devicesKey with
    | some uid => (.ok uid, s)
    | none => (.error .StoreUnavailable, s)

/-- Modelled from the spec: construction of one per-device communication
context, bound to the exchanged group identifier, this process's rank,
the group size and the device; fails when the backend initialization
fails on that device. -/
def initNCCLComm (env : Env) (uid : NcclUniqueId) (rank numRanks device serial : Nat) :
    Option NCCLComm :=
  if env.commInitOk device then
    some { serial := serial, ncclId := uid, rank := rank, numRanks := numRanks, device := device }
  else
    none

/-- Construct one context per device of the ordered device sequence,
drawing consecutive serials; fails as a whole if any device fails. -/
def buildComms (env : Env) (uid : NcclUniqueId) (rank numRanks : Nat) :
    List Nat → Nat → Option (List NCCLComm)
  | [], _ => some []
  | d :: ds, serial =>
    match initNCCLComm env uid rank numRanks d serial with
    | none => none
    | some c =>
      match buildComms env uid rank numRanks ds (serial + 1) with
      | none => none
      | some cs => some (c :: cs)

/-- One dedicated execution stream per device, consecutive identities. -/
def mkStreams : List Nat → Nat → List CUDAStream
  | [], _ => []
  | d :: ds, base => { streamId := base, device := d } :: mkStreams ds (base + 1)

/-- One synchronization event per device, consecutive identities. -/
def mkEvents : List Nat → Nat → List CUDAEvent
  | [], _ => []
  | d :: ds, base => { eventId := base, device := d } :: mkEvents ds (base + 1)

/-- Modelled from the spec: `getNCCLComm` (body missing from `src/`).
Cache hit returns the stored entry unchanged; otherwise the group
identifier is exchanged through the store, one context per device is
constructed (aborting the whole call on any failure, retaining no
partial entry), and the communicator, stream and event caches gain the
new key together. -/
def getNCCLComm (env : Env) (s : PGState) (devices : List Nat) :
    Except PGError (List NCCLComm) × PGState :=
  match alookup s.devNCCLCommMap_ (getKeyFromDevices devices) with
  | some entry => (.ok entry, s)
  | none =>
    match broadcastUniqueNCCLId s (getKeyFromDevices devices) with
    | (.error e, s1) => (.error e, s1)
    | (.ok uid, s1) =>
      match buildComms env uid s1.rank_ s1.size_ devices s1.nextCommSerial with
      | none => (.error .BackendFailure, s1)
      | some comms =>
        (.ok comms,
          { s1 with
            devNCCLCommMap_ := (getKeyFromDevices devices, comms) :: s1.devNCCLCommMap_,
            ncclStreams_ :=
              (getKeyFromDevices devices, mkStreams devices s1.nextStreamId) :: s1.ncclStreams_,
            ncclEvents_ :=
              (getKeyFromDevices devices, mkEvents devices s1.nextEventId) :: s1.ncclEvents_,
            nextCommSerial := s1.nextCommSerial + devices.length,
            nextStreamId := s1.nextStreamId + devices.length,
            nextEventId := s1.nextEventId + devices.length })

/-- Modelled from the spec: `tensorCheckHelper(input, output,
outputOverInput)` (body missing from `src/`). Validation fails fast with
`InvalidOperands`: the input list must be non-empty, the output count
must equal the input count times the declared multiplier, all tensors
must share one element type and one shape, and the input tensors must
reside on pairwise distinct devices. -/
def tensorCheckHelper (input output : List Tensor) (outputOverInput : Nat) :
    Except PGError Unit :=
  match input with
  | [] => .error (.InvalidOperands .emptyList)
  | t0 :: _ =>
    if input.length * outputOverInput = output.length then
      if (input ++ output).all (fun t => t.dtype == t0.dtype) then
        if (input ++ output).all (fun t => t.sizes == t0.sizes) then
          if (input.map Tensor.device).Nodup then
            .ok ()
          else
            .error (.InvalidOperands .duplicateDevice)
        else
          .error (.InvalidOperands .sizeMismatch)
      else
        .error (.InvalidOperands .typeMismatch)
    else
      .error (.InvalidOperands .countMismatch)

/-- Asynchronous work handle `ProcessGroupNCCL::WorkNCCL`: the cached
device list and the per-device completion events recorded at dispatch. -/
structure WorkNCCL where
  devices_ : List Nat
  cudaEvents_ : List CUDAEvent
deriving DecidableEq, Repr

/-- Modelled from the spec: the collective dispatcher (body missing from
`src/`). Validates, resolves the communicator cache for the ordered
device sequence of the input tensors, enqueues one kernel per device on
its dedicated stream, records one fresh completion event per device, and
returns the work handle. Validation failure returns before any kernel is
enqueued, leaving the state untouched. -/
def collectiveDispatch (env : Env) (s : PGState) (op : OpKind)
    (input output : List Tensor) (outputOverInput : Nat) :
    Except PGError WorkNCCL × PGState :=
  match tensorCheckHelper input output outputOverInput with
  | .error e => (.error e, s)
  | .ok _ =>
    match getNCCLComm env s (input.map Tensor.device) with
    | (.error e, s1) => (.error e, s1)
    | (.ok _, s1) =>
      (.ok { devices_ := input.map Tensor.device,
             cudaEvents_ := mkEvents (input.map Tensor.device) s1.nextEventId },
        { s1 with
          enqueued := s1.enqueued ++ (input.map Tensor.device).map (fun d => (op, d)),
          nextEventId := s1.nextEventId + (input.map Tensor.device).length })

/-- Public `ProcessGroupNCCL::allreduce(tensors, opts)`: one tensor list
serving as both input and output, validated against itself with the
default multiplier 1. -/
def ProcessGroupNCCL.allreduce (env : Env) (s : PGState) (tensors : List Tensor)
    (opts : AllreduceOptions) : Except PGError WorkNCCL × PGState :=
  collectiveDispatch env s .allreduceOp tensors tensors 1

/-- Public `ProcessGroupNCCL::broadcast(tensors, opts)`: one tensor list
serving as both input and output, validated against itself with the
default multiplier 1. -/
def ProcessGroupNCCL.broadcast (env : Env) (s : PGState) (tensors : List Tensor)
    (opts : BroadcastOptions) : Except PGError WorkNCCL × PGState :=
  collectiveDispatch env s .broadcastOp tensors tensors 1

/-- The work's GPU execution is finished when every recorded completion
event has signalled (`WorkNCCL::finishedGPUExecution`); `sig` is the
current signal state of the devices. -/
def WorkNCCL.finishedGPUExecution (w : WorkNCCL) (sig : Nat → Bool) : Bool :=
  w.cudaEvents_.all (fun e => sig e.eventId)

/-- The header's per-method contract: `WorkNCCL::isCompleted` checks
whether the NCCL operation has completed on the GPU in its own stream,
i.e. queries the recorded events. -/
def WorkNCCL.isCompleted (w : WorkNCCL) (sig : Nat → Bool) : Bool :=
  w.finishedGPUExecution sig

/-- Header contract: `WorkNCCL::isSuccess` will always return true,
since every NCCL or CUDA failure raises instead of being stored. -/
def WorkNCCL.isSuccess (w : WorkNCCL) : Bool := true

/-- Header contract: `WorkNCCL::exception` is not supported by WorkNCCL
and fails with `NotSupported` instead of returning a stored exception. -/
def WorkNCCL.exceptionResult (w : WorkNCCL) : Except PGError Unit :=
  .error .NotSupported

/-- Modelled from the spec: `WorkNCCL::wait` makes the calling execution
context depend on every completion event; `wait` having returned in
signal state `sig` means that dependency is discharged — every recorded
event has signalled in `sig`. -/
def WorkNCCL.waitReturned (w : WorkNCCL) (sig : Nat → Bool) : Prop :=
  ∀ e ∈ w.cudaEvents_, sig e.eventId = true

/-- A GPU signal trace: which event identities have signalled at each
instant; events signal monotonically (an event never un-signals). -/
structure GpuTrace where
  sig : Nat → Nat → Bool
  mono : ∀ e t t', t ≤ t' → sig t e = true → sig t' e = true

/-- Consistency of the three device-key-indexed caches: they hold
exactly the same keys, in the same creation order. -/
def keysConsistent (s : PGState) : Prop :=
  s.devNCCLCommMap_.map Prod.fst = s.ncclStreams_.map Prod.fst ∧
  s.devNCCLCommMap_.map Prod.fst = s.ncclEvents_.map Prod.fst

/-- Concrete backend environment on which every device initializes. -/
def envOk : Env := ⟨fun _ => true⟩

/-- Concrete backend environment on which every device initialization
fails. -/
def envBad : Env := ⟨fun _ => false⟩

/-- Concrete rank-0 process group of size 2 with an empty store. -/
def pg02 : PGState := mkProcessGroupNCCL [] 0 2

/-- Concrete single-element CUDA tensor on device 0. -/
def tensorA : Tensor := ⟨0, 0, [1]⟩

/-- Concrete trace on which no event ever signals. -/
def trFalse : GpuTrace := ⟨fun _ _ => false, fun _ _ _ _ h => h⟩

/-- Concrete trace on which every event has always signalled. -/
def trTrue : GpuTrace := ⟨fun _ _ => true, fun _ _ _ _ h => h⟩

/-- Concrete rank-1 process group of size 2 whose store copy is the
store left by rank 0's resolve of device set `[0]`. -/
def srFix : PGState := mkProcessGroupNCCL ((getNCCLComm envOk pg02 [0]).2).store_ 1 2

theorem charVal_digitChar : ∀ d < 10, charVal (digitChar d) = d := by
  decide

theorem digitChar_ne_comma : ∀ d < 10, digitChar d ≠ ',' := by
  decide

theorem charsVal_append_digit (xs : List Char) (c : Char) :
    charsVal (xs ++ [c]) = 10 * charsVal xs + charVal c := by
  unfold charsVal
  rw [List.foldl_append]
  rfl

theorem charsVal_natCharsAux : ∀ (fuel n : Nat), n ≤ fuel →
    charsVal (natCharsAux fuel n) = n := by
  intro fuel
  induction fuel with
  | zero =>
    intro n h
    have hn : n = 0 := Nat.le_zero.mp h
    simp [hn, natCharsAux, charsVal]
  | succ f ih =>
    intro n h
    unfold natCharsAux
    by_cases hn : n = 0
    · simp [hn, charsVal]
    · rw [if_neg hn, charsVal_append_digit, ih (n / 10) (by omega),
        charVal_digitChar (n % 10) (by omega)]
      omega

theorem charsVal_natChars (n : Nat) : charsVal (natChars n) = n := by
  unfold natChars
  split
  · rename_i hn
    rw [hn]
    rfl
  · exact charsVal_natCharsAux n n (le_refl n)

theorem natChars_inj (m a : Nat) (h : natChars m = natChars a) : m = a := by
  have hv := congrArg charsVal h
  rwa [charsVal_natChars, charsVal_natChars] at hv

theorem natCharsAux_no_comma : ∀ (fuel n : Nat), ',' ∉ natCharsAux fuel n := by
  intro fuel
  induction fuel with
  | zero => intro n; simp [natCharsAux]
  | succ f ih =>
    intro n
    unfold natCharsAux
    split
    · simp
    · intro hmem
      rw [List.mem_append] at hmem
      cases hmem with
      | inl hm => exact ih (n / 10) hm
      | inr hm =>
        simp at hm
        exact digitChar_ne_comma (n % 10) (by omega) hm.symm

theorem natChars_no_comma (n : Nat) : ',' ∉ natChars n := by
  unfold natChars
  split
  · decide
  · exact natCharsAux_no_comma n n

theorem natChars_ne_nil (n : Nat) : natChars n ≠ [] := by
  unfold natChars
  split
  · simp
  · rename_i hn
    cases n with
    | zero => exact absurd rfl hn
    | succ f =>
      unfold natCharsAux
      rw [if_neg hn]
      simp

theorem append_comma_inj : ∀ (a : List Char), ∀ (b u v : List Char), ',' ∉ a → ',' ∉ b →
    a ++ ',' :: u = b ++ ',' :: v → a = b ∧ u = v := by
  intro a
  induction a with
  | nil =>
    intro b u v _ hb h
    cases b with
    | nil => simpa using h
    | cons c bt =>
      exfalso
      simp only [List.nil_append, List.cons_append, List.cons.injEq] at h
      exact hb (by rw [← h.1]; simp)
  | cons c at' ih =>
    intro b u v ha hb h
    cases b with
    | nil =>
      exfalso
      simp only [List.cons_append, List.nil_append, List.cons.injEq] at h
      exact ha (by rw [h.1]; simp)
    | cons c2 bt =>
      simp only [List.cons_append, List.cons.injEq] at h
      have hat : ',' ∉ at' := fun hx => ha (by simp [hx])
      have hbt : ',' ∉ bt := fun hx => hb (by simp [hx])
      obtain ⟨h1, h2⟩ := ih bt u v hat hbt h.2
      exact ⟨by rw [h.1, h1], h2⟩

theorem joinComma_inj : ∀ (l1 l2 : List (List Char)),
    (∀ x ∈ l1, ',' ∉ x ∧ x ≠ []) → (∀ x ∈ l2, ',' ∉ x ∧ x ≠ []) →
    joinComma l1 = joinComma l2 → l1 = l2 := by
  intro l1
  induction l1 with
  | nil =>
    intro l2 _ h2 h
    cases l2 with
    | nil => rfl
    | cons x xs =>
      exfalso
      cases xs with
      | nil =>
        exact (h2 x (by simp)).2 (by simpa [joinComma] using h.symm)
      | cons y ys =>
        simp only [joinComma] at h
        have : ',' ∈ x ++ ',' :: joinComma (y :: ys) := by simp
        rw [← h] at this
        simp at this
  | cons x xs ih =>
    intro l2 h1 h2 h
    cases l2 with
    | nil =>
      exfalso
      cases xs with
      | nil =>
        exact (h1 x (by simp)).2 (by simpa [joinComma] using h)
      | cons y ys =>
        simp only [joinComma] at h
        have : ',' ∈ x ++ ',' :: joinComma (y :: ys) := by simp
        rw [h] at this
        simp at this
    | cons x2 xs2 =>
      cases xs with
      | nil =>
        cases xs2 with
        | nil =>
          simp only [joinComma] at h
          rw [h]
        | cons y2 ys2 =>
          exfalso
          simp only [joinComma] at h
          have : ',' ∈ x2 ++ ',' :: joinComma (y2 :: ys2) := by simp
          rw [← h] at this
          exact (h1 x (by simp)).1 this
      | cons y ys =>
        cases xs2 with
        | nil =>
          exfalso
          simp only [joinComma] at h
          have : ',' ∈ x ++ ',' :: joinComma (y :: ys) := by simp
          rw [h] at this
          exact (h2 x2 (by simp)).1 this
        | cons y2 ys2 =>
          simp only [joinComma] at h
          obtain ⟨hx, hrest⟩ :=
            append_comma_inj x x2 (joinComma (y :: ys)) (joinComma (y2 :: ys2))
              (h1 x (by simp)).1 (h2 x2 (by simp)).1 h
          have : (y :: ys) = (y2 :: ys2) :=
            ih (y2 :: ys2) (fun z hz => h1 z (by simp [hz]))
              (fun z hz => h2 z (by simp [hz])) hrest
          rw [hx, this]

theorem map_natChars_inj : ∀ (d1 d2 : List Nat),
    d1.map natChars = d2.map natChars → d1 = d2 := by
  intro d1
  induction d1 with
  | nil => intro d2 h; cases d2 <;> simp_all
  | cons x xs ih =>
    intro d2 h
    cases d2 with
    | nil => simp_all
    | cons y ys =>
      simp only [List.map_cons, List.cons.injEq] at h
      rw [natChars_inj x y h.1, ih ys h.2]

theorem getKeyFromDevices_injective : Function.Injective getKeyFromDevices := by
  intro d1 d2 h
  unfold getKeyFromDevices at h
  have hjoin : joinComma (d1.map natChars) = joinComma (d2.map natChars) := by
    have := congrArg String.data h
    simpa using this
  have hmaps : d1.map natChars = d2.map natChars :=
    joinComma_inj _ _
      (fun x hx => by
        obtain ⟨n, _, hn⟩ := List.mem_map.mp hx
        exact ⟨hn ▸ natChars_no_comma n, hn ▸ natChars_ne_nil n⟩)
      (fun x hx => by
        obtain ⟨n, _, hn⟩ := List.mem_map.mp hx
        exact ⟨hn ▸ natChars_no_comma n, hn ▸ natChars_ne_nil n⟩)
      hjoin
  exact map_natChars_inj _ _ hmaps

theorem alookup_cons_self {α : Type} (k : String) (v : α) (m : List (String × α)) :
    alookup ((k, v) :: m) k = some v := by
  simp [alookup]

theorem alookup_cons_ne {α : Type} (k k' : String) (v : α) (m : List (String × α))
    (h : k' ≠ k) : alookup ((k', v) :: m) k = alookup m k := by
  simp [alookup, h]

theorem alookup_some_iff_mem_keys {α : Type} (m : List (String × α)) (k : String) :
    (∃ v, alookup m k = some v) ↔ k ∈ m.map Prod.fst := by
  induction m with
  | nil => simp [alookup]
  | cons p rest ih =>
    obtain ⟨k', v'⟩ := p
    by_cases hk : k' = k
    · subst hk
      simp [alookup]
    · rw [alookup_cons_ne _ _ _ _ hk]
      simp only [List.map_cons, List.mem_cons]
      rw [ih]
      constructor
      · intro hmem; exact Or.inr hmem
      · intro hmem
        cases hmem with
        | inl h => exact absurd h.symm hk
        | inr h => exact h

theorem buildComms_ncclId (env : Env) (uid : NcclUniqueId) (rank numRanks : Nat) :
    ∀ (ds : List Nat) (serial : Nat) (cs : List NCCLComm),
    buildComms env uid rank numRanks ds serial = some cs → ∀ c ∈ cs, c.ncclId = uid := by
  intro ds
  induction ds with
  | nil =>
    intro serial cs h c hc
    simp [buildComms] at h
    subst h
    simp at hc
  | cons d dt ih =>
    intro serial cs h c hc
    simp only [buildComms] at h
    cases hinit : initNCCLComm env uid rank numRanks d serial with
    | none => rw [hinit] at h; simp at h
    | some c0 =>
      rw [hinit] at h
      cases hrest : buildComms env uid rank numRanks dt (serial + 1) with
      | none => rw [hrest] at h; simp at h
      | some cs0 =>
        rw [hrest] at h
        simp at h
        rw [← h] at hc
        cases hc with
        | head =>
          unfold initNCCLComm at hinit
          split at hinit
          · simp at hinit; rw [← hinit]
          · simp at hinit
        | tail _ hmem => exact ih (serial + 1) cs0 hrest c hmem

theorem buildComms_fails (env : Env) (uid : NcclUniqueId) (rank numRanks : Nat) :
    ∀ (ds : List Nat) (serial d : Nat), d ∈ ds → env.commInitOk d = false →
    buildComms env uid rank numRanks ds serial = none := by
  intro ds
  induction ds with
  | nil => intro _ _ h; simp at h
  | cons x dt ih =>
    intro serial d hmem hbad
    simp only [buildComms]
    cases hmem with
    | head =>
      unfold initNCCLComm
      rw [hbad]
      simp
    | tail _ hm =>
      cases hinit : initNCCLComm env uid rank numRanks x serial with
      | none => simp
      | some c =>
        rw [ih (serial + 1) d hm hbad]

theorem mkEvents_id_ge : ∀ (ds : List Nat) (base : Nat) (e : CUDAEvent),
    e ∈ mkEvents ds base → base ≤ e.eventId := by
  intro ds
  induction ds with
  | nil => intro base e h; simp [mkEvents] at h
  | cons d dt ih =>
    intro base e h
    simp only [mkEvents, List.mem_cons] at h
    cases h with
    | inl h => rw [h]
    | inr h => exact Nat.le_of_succ_le (ih (base + 1) e h)

theorem mkEvents_ne_nil (ds : List Nat) (base : Nat) (h : ds ≠ []) :
    mkEvents ds base ≠ [] := by
  cases ds with
  | nil => exact absurd rfl h
  | cons d dt => simp [mkEvents]

theorem tensorCheckHelper_ok_ne_nil (input output : List Tensor) (m : Nat) (u : Unit)
    (h : tensorCheckHelper input output m = .ok u) : input ≠ [] := by
  intro hnil
  rw [hnil] at h
  simp [tensorCheckHelper] at h

theorem tensorCheckHelper_self_no_countMismatch (tensors : List Tensor) :
    tensorCheckHelper tensors tensors 1 ≠ .error (.InvalidOperands .countMismatch) := by
  cases tensors with
  | nil => simp [tensorCheckHelper]
  | cons t0 rest =>
    simp only [tensorCheckHelper, Nat.mul_one, eq_self_iff_true, if_true]
    repeat' split
    all_goals simp

theorem broadcastUniqueNCCLId_error (s : PGState) (k : String) (e : PGError) (s' : PGState)
    (h : broadcastUniqueNCCLId s k = (.error e, s')) : e = .StoreUnavailable ∧ s' = s := by
  unfold broadcastUniqueNCCLId at h
  split at h
  · simp at h
  · cases hs : alookup s.store_ k with
    | some uid => rw [hs] at h; simp at h
    | none =>
      rw [hs] at h
      simp at h
      exact ⟨h.1.symm, h.2.symm⟩

theorem broadcastUniqueNCCLId_frame (s : PGState) (k : String) (r : Except PGError NcclUniqueId)
    (s' : PGState) (h : broadcastUniqueNCCLId s k = (r, s')) :
    s'.devNCCLCommMap_ = s.devNCCLCommMap_ ∧ s'.ncclStreams_ = s.ncclStreams_ ∧
    s'.ncclEvents_ = s.ncclEvents_ ∧ s'.rank_ = s.rank_ ∧ s'.size_ = s.size_ ∧
    s'.nextCommSerial = s.nextCommSerial ∧ s'.nextStreamId = s.nextStreamId ∧
    s'.nextEventId = s.nextEventId ∧ s'.enqueued = s.enqueued := by
  unfold broadcastUniqueNCCLId at h
  split at h
  · obtain ⟨h1, h2⟩ := Prod.mk.injEq .. ▸ h
    rw [← h2]
    simp
  · cases hs : alookup s.store_ k with
    | some uid =>
      rw [hs] at h
      obtain ⟨h1, h2⟩ := Prod.mk.injEq .. ▸ h
      rw [← h2]
      exact ⟨rfl, rfl, rfl, rfl, rfl, rfl, rfl, rfl, rfl⟩
    | none =>
      rw [hs] at h
      obtain ⟨h1, h2⟩ := Prod.mk.injEq .. ▸ h
      rw [← h2]
      exact ⟨rfl, rfl, rfl, rfl, rfl, rfl, rfl, rfl, rfl⟩

theorem broadcastUniqueNCCLId_rank0 (s : PGState) (k : String) (h : s.rank_ = 0) :
    broadcastUniqueNCCLId s k =
      (.ok s.nextNcclIdSeed,
        { s with store_ := (k, s.nextNcclIdSeed) :: s.store_,
                 nextNcclIdSeed := s.nextNcclIdSeed + 1 }) := by
  unfold broadcastUniqueNCCLId
  rw [if_pos h]

theorem broadcastUniqueNCCLId_reader (s : PGState) (k : String) (uid : NcclUniqueId)
    (hr : s.rank_ ≠ 0) (hs : alookup s.store_ k = some uid) :
    broadcastUniqueNCCLId s k = (.ok uid, s) := by
  unfold broadcastUniqueNCCLId
  rw [if_neg hr, hs]

theorem getNCCLComm_error_kind (env : Env) (s : PGState) (devices : List Nat)
    (e : PGError) (s' : PGState) (h : getNCCLComm env s devices = (.error e, s')) :
    e = .StoreUnavailable ∨ e = .BackendFailure := by
  unfold getNCCLComm at h
  cases hl : alookup s.devNCCLCommMap_ (getKeyFromDevices devices) with
  | some entry => rw [hl] at h; simp at h
  | none =>
    rw [hl] at h
    rcases hb : broadcastUniqueNCCLId s (getKeyFromDevices devices) with ⟨r, s1⟩
    rw [hb] at h
    cases r with
    | error e2 =>
      simp at h
      exact Or.inl (h.1 ▸ (broadcastUniqueNCCLId_error s _ e2 s1 hb).1)
    | ok uid =>
      simp only [] at h
      cases hbc : buildComms env uid s1.rank_ s1.size_ devices s1.nextCommSerial with
      | none =>
        rw [hbc] at h
        simp at h
        exact Or.inr h.1.symm
      | some comms =>
        rw [hbc] at h
        simp at h

theorem getNCCLComm_hit (env : Env) (s : PGState) (devices : List Nat) (entry : List NCCLComm)
    (hl : alookup s.devNCCLCommMap_ (getKeyFromDevices devices) = some entry) :
    getNCCLComm env s devices = (.ok entry, s) := by
  unfold getNCCLComm
  rw [hl]

theorem getNCCLComm_ok_lookup (env : Env) (s : PGState) (devices : List Nat)
    (comms : List NCCLComm) (s' : PGState)
    (h : getNCCLComm env s devices = (.ok comms, s')) :
    alookup s'.devNCCLCommMap_ (getKeyFromDevices devices) = some comms := by
  unfold getNCCLComm at h
  cases hl : alookup s.devNCCLCommMap_ (getKeyFromDevices devices) with
  | some entry =>
    rw [hl] at h
    simp at h
    rw [← h.2, ← h.1]
    exact hl
  | none =>
    rw [hl] at h
    rcases hb : broadcastUniqueNCCLId s (getKeyFromDevices devices) with ⟨r, s1⟩
    rw [hb] at h
    cases r with
    | error e2 => simp at h
    | ok uid =>
      simp only [] at h
      cases hbc : buildComms env uid s1.rank_ s1.size_ devices s1.nextCommSerial with
      | none => rw [hbc] at h; simp at h
      | some cs =>
        rw [hbc] at h
        simp at h
        rw [← h.2]
        simp only []
        rw [← h.1]
        exact alookup_cons_self _ _ _

theorem getNCCLComm_error_caches (env : Env) (s : PGState) (devices : List Nat)
    (e : PGError) (s' : PGState) (h : getNCCLComm env s devices = (.error e, s')) :
    s'.devNCCLCommMap_ = s.devNCCLCommMap_ ∧ s'.ncclStreams_ = s.ncclStreams_ ∧
    s'.ncclEvents_ = s.ncclEvents_ := by
  unfold getNCCLComm at h
  cases hl : alookup s.devNCCLCommMap_ (getKeyFromDevices devices) with
  | some entry => rw [hl] at h; simp at h
  | none =>
    rw [hl] at h
    rcases hb : broadcastUniqueNCCLId s (getKeyFromDevices devices) with ⟨r, s1⟩
    rw [hb] at h
    obtain ⟨hc1, hc2, hc3, _⟩ := broadcastUniqueNCCLId_frame s _ r s1 hb
    cases r with
    | error e2 =>
      simp at h
      rw [← h.2]
      exact ⟨hc1, hc2, hc3⟩
    | ok uid =>
      simp only [] at h
      cases hbc : buildComms env uid s1.rank_ s1.size_ devices s1.nextCommSerial with
      | none =>
        rw [hbc] at h
        simp at h
        rw [← h.2]
        exact ⟨hc1, hc2, hc3⟩
      | some cs => rw [hbc] at h; simp at h

theorem getNCCLComm_nextEventId_le (env : Env) (s : PGState) (devices : List Nat) :
    s.nextEventId ≤ ((getNCCLComm env s devices).2).nextEventId := by
  unfold getNCCLComm
  cases hl : alookup s.devNCCLCommMap_ (getKeyFromDevices devices) with
  | some entry => simp
  | none =>
    rcases hb : broadcastUniqueNCCLId s (getKeyFromDevices devices) with ⟨r, s1⟩
    obtain ⟨_, _, _, _, _, _, _, hev, _⟩ := broadcastUniqueNCCLId_frame s _ r s1 hb
    cases r with
    | error e2 =>
      simp
      omega
    | ok uid =>
      simp only []
      cases hbc : buildComms env uid s1.rank_ s1.size_ devices s1.nextCommSerial with
      | none =>
        simp
        omega
      | some cs =>
        simp only []
        rw [hev]
        exact Nat.le_add_right _ _

theorem getNCCLComm_other_key (env : Env) (s : PGState) (devices : List Nat) (k : String)
    (hk : k ≠ getKeyFromDevices devices) :
    alookup ((getNCCLComm env s devices).2).devNCCLCommMap_ k =
      alookup s.devNCCLCommMap_ k := by
  unfold getNCCLComm
  cases hl : alookup s.devNCCLCommMap_ (getKeyFromDevices devices) with
  | some entry => simp
  | none =>
    rcases hb : broadcastUniqueNCCLId s (getKeyFromDevices devices) with ⟨r, s1⟩
    obtain ⟨hc1, _⟩ := broadcastUniqueNCCLId_frame s _ r s1 hb
    cases r with
    | error e2 => simp [hc1]
    | ok uid =>
      simp only []
      cases hbc : buildComms env uid s1.rank_ s1.size_ devices s1.nextCommSerial with
      | none => simp [hc1]
      | some cs =>
        simp only []
        rw [alookup_cons_ne _ _ _ _ (fun hkk => hk hkk.symm)]
        exact hc1 ▸ rfl

theorem getNCCLComm_miss_ok (env : Env) (s : PGState) (devices : List Nat)
    (comms : List NCCLComm) (s' : PGState)
    (hl : alookup s.devNCCLCommMap_ (getKeyFromDevices devices) = none)
    (h : getNCCLComm env s devices = (.ok comms, s')) :
    ∃ uid s1, broadcastUniqueNCCLId s (getKeyFromDevices devices) = (.ok uid, s1) ∧
      (∀ c ∈ comms, c.ncclId = uid) ∧ s'.store_ = s1.store_ := by
  unfold getNCCLComm at h
  rw [hl] at h
  rcases hb : broadcastUniqueNCCLId s (getKeyFromDevices devices) with ⟨r, s1⟩
  rw [hb] at h
  cases r with
  | error e2 => simp at h
  | ok uid =>
    simp only [] at h
    cases hbc : buildComms env uid s1.rank_ s1.size_ devices s1.nextCommSerial with
    | none => rw [hbc] at h; simp at h
    | some cs =>
      rw [hbc] at h
      simp at h
      refine ⟨uid, s1, ?_, ?_, ?_⟩
      · first
        | exact hb
        | rfl
      · intro c hc
        rw [← h.1] at hc
        exact buildComms_ncclId env uid s1.rank_ s1.size_ devices s1.nextCommSerial cs hbc c hc
      · rw [← h.2]

theorem getNCCLComm_keys (env : Env) (s : PGState) (devices : List Nat)
    (hks : keysConsistent s) : keysConsistent ((getNCCLComm env s devices).2) := by
  unfold getNCCLComm
  cases hl : alookup s.devNCCLCommMap_ (getKeyFromDevices devices) with
  | some entry => exact hks
  | none =>
    rcases hb : broadcastUniqueNCCLId s (getKeyFromDevices devices) with ⟨r, s1⟩
    obtain ⟨hc1, hc2, hc3, _⟩ := broadcastUniqueNCCLId_frame s _ r s1 hb
    have hks1 : keysConsistent s1 := by
      unfold keysConsistent at hks ⊢
      rw [hc1, hc2, hc3]
      exact hks
    cases r with
    | error e2 => exact hks1
    | ok uid =>
      simp only []
      cases hbc : buildComms env uid s1.rank_ s1.size_ devices s1.nextCommSerial with
      | none => exact hks1
      | some cs =>
        simp only []
        unfold keysConsistent at hks1 ⊢
        simp only [List.map_cons]
        exact ⟨by rw [hks1.1], by rw [hks1.2]⟩

theorem collectiveDispatch_keys (env : Env) (s : PGState) (op : OpKind)
    (input output : List Tensor) (m : Nat) (hks : keysConsistent s) :
    keysConsistent ((collectiveDispatch env s op input output m).2) := by
  unfold collectiveDispatch
  cases hcheck : tensorCheckHelper input output m with
  | error e => exact hks
  | ok u =>
    rcases hg : getNCCLComm env s (input.map Tensor.device) with ⟨r, s1⟩
    have hks1 : keysConsistent s1 := by
      have := getNCCLComm_keys env s (input.map Tensor.device) hks
      rw [hg] at this
      exact this
    cases r with
    | error e => exact hks1
    | ok comms =>
      simp only []
      unfold keysConsistent at hks1 ⊢
      exact hks1

theorem collectiveDispatch_ok (env : Env) (s : PGState) (op : OpKind)
    (input output : List Tensor) (m : Nat) (w : WorkNCCL) (s2 : PGState)
    (h : collectiveDispatch env s op input output m = (.ok w, s2)) :
    input ≠ [] ∧ w.devices_ = input.map Tensor.device ∧
    ∃ comms s1, getNCCLComm env s (input.map Tensor.device) = (.ok comms, s1) ∧
      w.cudaEvents_ = mkEvents (input.map Tensor.device) s1.nextEventId ∧
      s.nextEventId ≤ s1.nextEventId := by
  unfold collectiveDispatch at h
  cases hcheck : tensorCheckHelper input output m with
  | error e => rw [hcheck] at h; simp at h
  | ok u =>
    rw [hcheck] at h
    rcases hg : getNCCLComm env s (input.map Tensor.device) with ⟨r, s1⟩
    rw [hg] at h
    cases r with
    | error e => simp at h
    | ok comms =>
      simp only [] at h
      simp at h
      refine ⟨tensorCheckHelper_ok_ne_nil input output m u hcheck, ?_, comms, s1, rfl, ?_, ?_⟩
      · rw [← h.1]
      · rw [← h.1]
      · have := getNCCLComm_nextEventId_le env s (input.map Tensor.device)
        rw [hg] at this
        exact this

theorem dispatch_self_no_countMismatch (env : Env) (s : PGState) (op : OpKind)
    (tensors : List Tensor) :
    (collectiveDispatch env s op tensors tensors 1).1 ≠
      .error (.InvalidOperands .countMismatch) := by
  unfold collectiveDispatch
  cases hcheck : tensorCheckHelper tensors tensors 1 with
  | error e =>
    simp only []
    intro hcontra
    apply tensorCheckHelper_self_no_countMismatch tensors
    rw [hcheck]
    simp at hcontra
    rw [hcontra]
  | ok u =>
    rcases hg : getNCCLComm env s (tensors.map Tensor.device) with ⟨r, s1⟩
    cases r with
    | error e =>
      simp only []
      intro hcontra
      simp at hcontra
      rcases getNCCLComm_error_kind env s (tensors.map Tensor.device) e s1 hg with h1 | h1 <;>
        rw [h1] at hcontra <;> exact PGError.noConfusion hcontra
    | ok comms => simp

/-- C1: after a first `resolve` (`getNCCLComm`) has created the cache
entry for an ordered device sequence, every later resolve with the same
sequence returns the identical cached entry — the stored communicator
list, with the whole state (hence the stream list and all counters)
untouched: a pure cache hit with no reconstruction and no side
effects. -/
theorem claim_C1_resolve_cache_hit (env : Env) (s : PGState) (devices : List Nat)
    (comms : List NCCLComm) (s' : PGState)
    (h : getNCCLComm env s devices = (.ok comms, s')) :
    getNCCLComm env s' devices = (.ok comms, s') :=
  getNCCLComm_hit env s' devices comms (getNCCLComm_ok_lookup env s devices comms s' h)

theorem claim_C1_witness :
    getNCCLComm envOk ((getNCCLComm envOk pg02 [0]).2) [0] =
      (.ok [⟨0, 0, 0, 2, 0⟩], (getNCCLComm envOk pg02 [0]).2) :=
  claim_C1_resolve_cache_hit envOk pg02 [0] [⟨0, 0, 0, 2, 0⟩]
    ((getNCCLComm envOk pg02 [0]).2) (by rfl)

/-- C3: two DeviceSets with the same device identifiers in different
orders give distinct cache keys — the ordered sequence is used verbatim
as the key, and `getKeyFromDevices` is injective — hence distinct cache
entries: resolving one sequence never touches the entry stored under
the other sequence's key. -/
theorem claim_C3_order_sensitive_keys (d1 d2 : List Nat) (hperm : d1.Perm d2)
    (hne : d1 ≠ d2) :
    getKeyFromDevices d1 ≠ getKeyFromDevices d2 ∧
    ∀ env s, alookup ((getNCCLComm env s d1).2).devNCCLCommMap_ (getKeyFromDevices d2) =
      alookup s.devNCCLCommMap_ (getKeyFromDevices d2) := by
  have hk : getKeyFromDevices d1 ≠ getKeyFromDevices d2 :=
    fun hcontra => hne (getKeyFromDevices_injective hcontra)
  exact ⟨hk, fun env s => getNCCLComm_other_key env s d1 (getKeyFromDevices d2) hk.symm⟩

theorem claim_C3_witness :
    getKeyFromDevices [0, 1] ≠ getKeyFromDevices [1, 0] ∧
    ∀ env s, alookup ((getNCCLComm env s [0, 1]).2).devNCCLCommMap_ (getKeyFromDevices [1, 0]) =
      alookup s.devNCCLCommMap_ (getKeyFromDevices [1, 0]) :=
  claim_C3_order_sensitive_keys [0, 1] [1, 0] (by decide) (by decide)

/-- C4: dispatching an allreduce whose output buffer count differs from
its input buffer count (multiplier 1) fails with `InvalidOperands`, and
the returned state is exactly the input state: validation fails before
any device kernel is enqueued and no device state changes. -/
theorem claim_C4_allreduce_count_mismatch (env : Env) (s : PGState)
    (input output : List Tensor) (hcount : input.length ≠ output.length) :
    ∃ f, collectiveDispatch env s .allreduceOp input output 1 =
      (.error (.InvalidOperands f), s) := by
  cases input with
  | nil => exact ⟨.emptyList, by simp [collectiveDispatch, tensorCheckHelper]⟩
  | cons t0 rest =>
    refine ⟨.countMismatch, ?_⟩
    have hcheck : tensorCheckHelper (t0 :: rest) output 1 =
        .error (.InvalidOperands .countMismatch) := by
      simp only [tensorCheckHelper]
      rw [if_neg (by rwa [Nat.mul_one])]
    unfold collectiveDispatch
    rw [hcheck]

theorem claim_C4_witness :
    [tensorA].length ≠ ([] : List Tensor).length ∧
    ∃ f, collectiveDispatch envOk pg02 .allreduceOp [tensorA] [] 1 =
      (.error (.InvalidOperands f), pg02) :=
  ⟨by decide, claim_C4_allreduce_count_mismatch envOk pg02 [tensorA] [] (by decide)⟩

/-- C5: if construction of any per-device communication context fails
during a resolve of a new DeviceSet, the whole call aborts with the
fatal `BackendFailure` (for the rank-0 originator the state advanced
only in the store and the id seed), and on every error path of
`getNCCLComm` the three caches are left exactly unchanged — no partial
cache entry for the key is retained. -/
theorem claim_C5_fatal_abort_no_partial_cache :
    (∀ (env : Env) (s : PGState) (devices : List Nat) (d : Nat),
       alookup s.devNCCLCommMap_ (getKeyFromDevices devices) = none →
       d ∈ devices → env.commInitOk d = false → s.rank_ = 0 →
       getNCCLComm env s devices = (.error .BackendFailure,
         { s with store_ := (getKeyFromDevices devices, s.nextNcclIdSeed) :: s.store_,
                  nextNcclIdSeed := s.nextNcclIdSeed + 1 })) ∧
    (∀ (env : Env) (s : PGState) (devices : List Nat) (e : PGError) (s' : PGState),
       getNCCLComm env s devices = (.error e, s') →
       s'.devNCCLCommMap_ = s.devNCCLCommMap_ ∧ s'.ncclStreams_ = s.ncclStreams_ ∧
       s'.ncclEvents_ = s.ncclEvents_) := by
  constructor
  · intro env s devices d hl hmem hbad hrank
    unfold getNCCLComm
    rw [hl, broadcastUniqueNCCLId_rank0 s _ hrank]
    simp only []
    rw [buildComms_fails env s.nextNcclIdSeed s.rank_ s.size_ devices s.nextCommSerial d
      hmem hbad]
  · intro env s devices e s' h
    exact getNCCLComm_error_caches env s devices e s' h

theorem claim_C5_witness :
    getNCCLComm envBad pg02 [0] =
      (.error .BackendFailure,
        { pg02 with store_ := (getKeyFromDevices [0], pg02.nextNcclIdSeed) :: pg02.store_,
                    nextNcclIdSeed := pg02.nextNcclIdSeed + 1 }) :=
  claim_C5_fatal_abort_no_partial_cache.1 envBad pg02 [0] 0 (by rfl) (by decide)
    (by rfl) (by rfl)

/-- C7: for every work handle, `isSuccess` returns true and the
exception accessor fails with `NotSupported` instead of returning a
stored exception. -/
theorem claim_C7_isSuccess_exception (w : WorkNCCL) :
    w.isSuccess = true ∧ w.exceptionResult = .error .NotSupported :=
  ⟨rfl, rfl⟩

theorem claim_C7_witness :
    (WorkNCCL.mk [0] [⟨0, 0⟩]).isSuccess = true ∧
    (WorkNCCL.mk [0] [⟨0, 0⟩]).exceptionResult = .error .NotSupported :=
  claim_C7_isSuccess_exception ⟨[0], [⟨0, 0⟩]⟩

/-- C10: the public collectives take one tensor list serving as both
input and output — `allreduce` and `broadcast` are exactly the
dispatcher applied with that list as input and as output and with the
default multiplier 1 — so the count validation compares the list
against itself and can never fail with a count mismatch. -/
theorem claim_C10_in_place_interface (env : Env) (s : PGState) (tensors : List Tensor)
    (aopts : AllreduceOptions) (bopts : BroadcastOptions) :
    ProcessGroupNCCL.allreduce env s tensors aopts =
      collectiveDispatch env s .allreduceOp tensors tensors 1 ∧
    ProcessGroupNCCL.broadcast env s tensors bopts =
      collectiveDispatch env s .broadcastOp tensors tensors 1 ∧
    (ProcessGroupNCCL.allreduce env s tensors aopts).1 ≠
      .error (.InvalidOperands .countMismatch) ∧
    (ProcessGroupNCCL.broadcast env s tensors bopts).1 ≠
      .error (.InvalidOperands .countMismatch) :=
  ⟨rfl, rfl, dispatch_self_no_countMismatch env s .allreduceOp tensors,
    dispatch_self_no_countMismatch env s .broadcastOp tensors⟩

theorem claim_C10_witness :
    ProcessGroupNCCL.allreduce envOk pg02 [tensorA] ⟨0⟩ =
      collectiveDispatch envOk pg02 .allreduceOp [tensorA] [tensorA] 1 ∧
    ProcessGroupNCCL.broadcast envOk pg02 [tensorA] ⟨0, 0⟩ =
      collectiveDispatch envOk pg02 .broadcastOp [tensorA] [tensorA] 1 ∧
    (ProcessGroupNCCL.allreduce envOk pg02 [tensorA] ⟨0⟩).1 ≠
      .error (.InvalidOperands .countMismatch) ∧
    (ProcessGroupNCCL.broadcast envOk pg02 [tensorA] ⟨0, 0⟩).1 ≠
      .error (.InvalidOperands .countMismatch) :=
  claim_C10_in_place_interface envOk pg02 [tensorA] ⟨0⟩ ⟨0, 0⟩

/-- C2: `isCompleted` polled immediately after dispatch may return
false — there is a dispatched allreduce and an instant at which it
reports false — and once `wait` has returned, i.e. its dependency on
every completion event is discharged, every later `isCompleted` poll on
that handle returns true. -/
theorem claim_C2_isCompleted_after_wait :
    (∃ (env : Env) (s : PGState) (tensors : List Tensor) (opts : AllreduceOptions)
       (w : WorkNCCL) (s' : PGState) (tr : GpuTrace) (t : Nat),
       ProcessGroupNCCL.allreduce env s tensors opts = (.ok w, s') ∧
       w.isCompleted (tr.sig t) = false) ∧
    (∀ (tr : GpuTrace) (w : WorkNCCL) (t t' : Nat),
       w.waitReturned (tr.sig t) → t ≤ t' → w.isCompleted (tr.sig t') = true) := by
  constructor
  · exact ⟨envOk, pg02, [tensorA], ⟨0⟩, ⟨[0], [⟨1, 0⟩]⟩,
      (ProcessGroupNCCL.allreduce envOk pg02 [tensorA] ⟨0⟩).2, trFalse, 0, by rfl, by rfl⟩
  · intro tr w t t' hw hle
    unfold WorkNCCL.isCompleted WorkNCCL.finishedGPUExecution
    rw [List.all_eq_true]
    intro e he
    exact tr.mono e.eventId t t' hle (hw e he)

theorem claim_C2_witness :
    WorkNCCL.waitReturned ⟨[0], [⟨5, 0⟩]⟩ (trTrue.sig 0) ∧
    WorkNCCL.isCompleted ⟨[0], [⟨5, 0⟩]⟩ (trTrue.sig 1) = true :=
  ⟨fun e _ => rfl,
    claim_C2_isCompleted_after_wait.2 trTrue ⟨[0], [⟨5, 0⟩]⟩ 0 1 (fun e _ => rfl)
      (by omega)⟩

/-- C6: starting from a state whose communicator cache, stream registry
and event registry are keyed consistently, every operation — a resolve
or a dispatched collective — preserves that consistency, and a
successful resolve makes its key present in all three maps together. -/
theorem claim_C6_cache_key_consistency (env : Env) (s : PGState)
    (hks : keysConsistent s) :
    (∀ devices, keysConsistent ((getNCCLComm env s devices).2)) ∧
    (∀ op input output m, keysConsistent ((collectiveDispatch env s op input output m).2)) ∧
    (∀ devices comms s', getNCCLComm env s devices = (.ok comms, s') →
       (∃ v, alookup s'.devNCCLCommMap_ (getKeyFromDevices devices) = some v) ∧
       (∃ v, alookup s'.ncclStreams_ (getKeyFromDevices devices) = some v) ∧
       (∃ v, alookup s'.ncclEvents_ (getKeyFromDevices devices) = some v)) := by
  refine ⟨fun devices => getNCCLComm_keys env s devices hks,
    fun op input output m => collectiveDispatch_keys env s op input output m hks,
    fun devices comms s' h => ?_⟩
  have hdev : alookup s'.devNCCLCommMap_ (getKeyFromDevices devices) = some comms :=
    getNCCLComm_ok_lookup env s devices comms s' h
  have hks' : keysConsistent s' := by
    have := getNCCLComm_keys env s devices hks
    rw [h] at this
    exact this
  have hmem : getKeyFromDevices devices ∈ s'.devNCCLCommMap_.map Prod.fst :=
    (alookup_some_iff_mem_keys _ _).mp ⟨comms, hdev⟩
  refine ⟨⟨comms, hdev⟩, ?_, ?_⟩
  · exact (alookup_some_iff_mem_keys _ _).mpr (hks'.1 ▸ hmem)
  · exact (alookup_some_iff_mem_keys _ _).mpr (hks'.2 ▸ hmem)

theorem claim_C6_witness :
    keysConsistent pg02 ∧ keysConsistent ((getNCCLComm envOk pg02 [0]).2) ∧
    ((∃ v, alookup ((getNCCLComm envOk pg02 [0]).2).devNCCLCommMap_ (getKeyFromDevices [0]) = some v) ∧
     (∃ v, alookup ((getNCCLComm envOk pg02 [0]).2).ncclStreams_ (getKeyFromDevices [0]) = some v) ∧
     (∃ v, alookup ((getNCCLComm envOk pg02 [0]).2).ncclEvents_ (getKeyFromDevices [0]) = some v)) :=
  ⟨⟨rfl, rfl⟩, (claim_C6_cache_key_consistency envOk pg02 ⟨rfl, rfl⟩).1 [0],
    (claim_C6_cache_key_consistency envOk pg02 ⟨rfl, rfl⟩).2.2 [0]
      [⟨0, 0, 0, 2, 0⟩] ((getNCCLComm envOk pg02 [0]).2) (by rfl)⟩

/-- C8: on first use of a DeviceSet, the rank-0 originator generates a
fresh group identifier and writes it to the shared store under the key
derived from the DeviceSet; a non-zero rank whose store copy contains
rank 0's write reads that same entry, and on both ranks every
communication context constructed by the resolve is bound to that one
shared identifier (the exchange precedes all construction). -/
theorem claim_C8_unique_id_agreement (env : Env) (s0 sr : PGState) (devices : List Nat)
    (comms0 commsr : List NCCLComm) (s0' sr' : PGState)
    (hrank0 : s0.rank_ = 0) (hrankr : sr.rank_ ≠ 0)
    (hmiss0 : alookup s0.devNCCLCommMap_ (getKeyFromDevices devices) = none)
    (hmissr : alookup sr.devNCCLCommMap_ (getKeyFromDevices devices) = none)
    (h0 : getNCCLComm env s0 devices = (.ok comms0, s0'))
    (hstore : sr.store_ = s0'.store_)
    (hr : getNCCLComm env sr devices = (.ok commsr, sr')) :
    ∃ uid, alookup s0'.store_ (getKeyFromDevices devices) = some uid ∧
      (∀ c ∈ comms0, c.ncclId = uid) ∧ (∀ c ∈ commsr, c.ncclId = uid) := by
  obtain ⟨uid0, s1, hb0, hbind0, hst0⟩ :=
    getNCCLComm_miss_ok env s0 devices comms0 s0' hmiss0 h0
  rw [broadcastUniqueNCCLId_rank0 s0 _ hrank0] at hb0
  simp at hb0
  obtain ⟨huid, hs1⟩ := hb0
  have hstore0 : alookup s0'.store_ (getKeyFromDevices devices) = some uid0 := by
    rw [hst0, ← hs1]
    simp only []
    rw [huid]
    exact alookup_cons_self _ _ _
  obtain ⟨uidr, sr1, hbr, hbindr, _⟩ :=
    getNCCLComm_miss_ok env sr devices commsr sr' hmissr hr
  rw [broadcastUniqueNCCLId_reader sr _ uid0 hrankr (by rw [hstore]; exact hstore0)] at hbr
  simp at hbr
  refine ⟨uid0, hstore0, hbind0, ?_⟩
  intro c hc
  rw [hbindr c hc, ← hbr.1]

theorem claim_C8_witness :
    ∃ uid, alookup ((getNCCLComm envOk pg02 [0]).2).store_ (getKeyFromDevices [0]) = some uid ∧
      (∀ c ∈ [NCCLComm.mk 0 0 0 2 0], c.ncclId = uid) ∧
      (∀ c ∈ [NCCLComm.mk 0 0 1 2 0], c.ncclId = uid) :=
  claim_C8_unique_id_agreement envOk pg02 srFix [0]
    [⟨0, 0, 0, 2, 0⟩] [⟨0, 0, 1, 2, 0⟩]
    ((getNCCLComm envOk pg02 [0]).2) ((getNCCLComm envOk srFix [0]).2)
    (by rfl) (by decide) (by rfl) (by rfl) (by rfl) (by rfl) (by rfl)

/-- C9: for every dispatched operation, `finishedGPUExecution` is false
immediately after dispatch (the freshly recorded events are not yet
signalled), becomes true at any instant at which the device has
signalled every recorded event, and never transitions from true back to
false along a monotone trace. -/
theorem claim_C9_finishedGPUExecution (env : Env) (s : PGState) (tensors : List Tensor)
    (opts : AllreduceOptions) (w : WorkNCCL) (s' : PGState) (tr : GpuTrace) (t0 : Nat)
    (hdisp : ProcessGroupNCCL.allreduce env s tensors opts = (.ok w, s'))
    (hfresh : ∀ e, tr.sig t0 e = true → e < s.nextEventId) :
    w.finishedGPUExecution (tr.sig t0) = false ∧
    (∀ t, (∀ e ∈ w.cudaEvents_, tr.sig t e.eventId = true) →
       w.finishedGPUExecution (tr.sig t) = true) ∧
    (∀ t t', t ≤ t' → w.finishedGPUExecution (tr.sig t) = true →
       w.finishedGPUExecution (tr.sig t') = true) := by
  have hdisp' : collectiveDispatch env s .allreduceOp tensors tensors 1 = (.ok w, s') := hdisp
  obtain ⟨hne, hdevs, comms, s1, hg, hev, hle⟩ :=
    collectiveDispatch_ok env s .allreduceOp tensors tensors 1 w s' hdisp'
  refine ⟨?_, ?_, ?_⟩
  · cases htens : tensors with
    | nil => exact absurd htens hne
    | cons t ts =>
      rw [htens] at hev
      simp only [List.map_cons, mkEvents] at hev
      unfold WorkNCCL.finishedGPUExecution
      rw [hev]
      simp only [List.all_cons]
      have hsig : tr.sig t0 s1.nextEventId = false := by
        cases hcase : tr.sig t0 s1.nextEventId with
        | false => rfl
        | true =>
          have := hfresh s1.nextEventId hcase
          omega
      rw [hsig]
      simp
  · intro t hall
    unfold WorkNCCL.finishedGPUExecution
    rw [List.all_eq_true]
    intro e he
    exact hall e he
  · intro t t' hle' hprev
    unfold WorkNCCL.finishedGPUExecution at hprev ⊢
    rw [List.all_eq_true] at hprev ⊢
    intro e he
    exact tr.mono e.eventId t t' hle' (hprev e he)

theorem claim_C9_witness :
    WorkNCCL.finishedGPUExecution ⟨[0], [⟨1, 0⟩]⟩ (trFalse.sig 0) = false ∧
    (∀ t, (∀ e ∈ (WorkNCCL.mk [0] [⟨1, 0⟩]).cudaEvents_, trFalse.sig t e.eventId = true) →
       WorkNCCL.finishedGPUExecution ⟨[0], [⟨1, 0⟩]⟩ (trFalse.sig t) = true) ∧
    (∀ t t', t ≤ t' → WorkNCCL.finishedGPUExecution ⟨[0], [⟨1, 0⟩]⟩ (trFalse.sig t) = true →
       WorkNCCL.finishedGPUExecution ⟨[0], [⟨1, 0⟩]⟩ (trFalse.sig t') = true) :=
  claim_C9_finishedGPUExecution envOk pg02 [tensorA] ⟨0⟩ ⟨[0], [⟨1, 0⟩]⟩
    ((ProcessGroupNCCL.allreduce envOk pg02 [tensorA] ⟨0⟩).2) trFalse 0 (by rfl)
    (fun e h => absurd h Bool.false_ne_true)

end c10d
